/-
Verification of the recommendation server (server/index.js) and the catalog
component (src/components/AIProductRecommender.jsx) of the ai-recommender
repository, as a shallow embedding in Lean 4.

The embedding models JavaScript values flowing through the server as an
inductive `Json` type (with an `undefined` constructor for the JavaScript
undefined value that appears when destructuring provider responses).
JSON.parse is modelled by a strict recursive-descent parser, JSON.stringify
and String() by recursive printers.  Numbers are modelled as exact rationals
rather than IEEE doubles; every numeric value exercised by the theorems below
is a small integer, where the two notions agree.  Network calls are modelled
by passing their outcome as an explicit parameter to the functions that
perform them.
-/
import Mathlib

set_option autoImplicit false

namespace AiRecommender

/-- Claim-relevant model of a JavaScript value.  `undefined` models the
JavaScript undefined value (produced by accessing a missing property);
it is never produced by the JSON parser. -/
inductive Json where
  | undefined : Json
  | null : Json
  | bool (b : Bool) : Json
  | num (q : Rat) : Json
  | str (s : String) : Json
  | arr (elts : List Json) : Json
  | obj (fields : List (String × Json)) : Json
  deriving Repr

mutual

/-- Decidable equality on Json (the deriving handler does not support this
nested inductive, so the instance is written out). -/
def decEqJson : (a b : Json) → Decidable (a = b)
  | .undefined, .undefined => isTrue rfl
  | .null, .null => isTrue rfl
  | .bool x, .bool y =>
    match decEq x y with
    | isTrue h => isTrue (congrArg Json.bool h)
    | isFalse h => isFalse (fun hh => h (Json.bool.inj hh))
  | .num x, .num y =>
    match decEq x y with
    | isTrue h => isTrue (congrArg Json.num h)
    | isFalse h => isFalse (fun hh => h (Json.num.inj hh))
  | .str x, .str y =>
    match decEq x y with
    | isTrue h => isTrue (congrArg Json.str h)
    | isFalse h => isFalse (fun hh => h (Json.str.inj hh))
  | .arr xs, .arr ys =>
    match decEqJsonList xs ys with
    | isTrue h => isTrue (congrArg Json.arr h)
    | isFalse h => isFalse (fun hh => h (Json.arr.inj hh))
  | .obj xs, .obj ys =>
    match decEqJsonFields xs ys with
    | isTrue h => isTrue (congrArg Json.obj h)
    | isFalse h => isFalse (fun hh => h (Json.obj.inj hh))
  | .undefined, .null => isFalse (fun h => Json.noConfusion h)
  | .undefined, .bool _ => isFalse (fun h => Json.noConfusion h)
  | .undefined, .num _ => isFalse (fun h => Json.noConfusion h)
  | .undefined, .str _ => isFalse (fun h => Json.noConfusion h)
  | .undefined, .arr _ => isFalse (fun h => Json.noConfusion h)
  | .undefined, .obj _ => isFalse (fun h => Json.noConfusion h)
  | .null, .undefined => isFalse (fun h => Json.noConfusion h)
  | .null, .bool _ => isFalse (fun h => Json.noConfusion h)
  | .null, .num _ => isFalse (fun h => Json.noConfusion h)
  | .null, .str _ => isFalse (fun h => Json.noConfusion h)
  | .null, .arr _ => isFalse (fun h => Json.noConfusion h)
  | .null, .obj _ => isFalse (fun h => Json.noConfusion h)
  | .bool _, .undefined => isFalse (fun h => Json.noConfusion h)
  | .bool _, .null => isFalse (fun h => Json.noConfusion h)
  | .bool _, .num _ => isFalse (fun h => Json.noConfusion h)
  | .bool _, .str _ => isFalse (fun h => Json.noConfusion h)
  | .bool _, .arr _ => isFalse (fun h => Json.noConfusion h)
  | .bool _, .obj _ => isFalse (fun h => Json.noConfusion h)
  | .num _, .undefined => isFalse (fun h => Json.noConfusion h)
  | .num _, .null => isFalse (fun h => Json.noConfusion h)
  | .num _, .bool _ => isFalse (fun h => Json.noConfusion h)
  | .num _, .str _ => isFalse (fun h => Json.noConfusion h)
  | .num _, .arr _ => isFalse (fun h => Json.noConfusion h)
  | .num _, .obj _ => isFalse (fun h => Json.noConfusion h)
  | .str _, .undefined => isFalse (fun h => Json.noConfusion h)
  | .str _, .null => isFalse (fun h => Json.noConfusion h)
  | .str _, .bool _ => isFalse (fun h => Json.noConfusion h)
  | .str _, .num _ => isFalse (fun h => Json.noConfusion h)
  | .str _, .arr _ => isFalse (fun h => Json.noConfusion h)
  | .str _, .obj _ => isFalse (fun h => Json.noConfusion h)
  | .arr _, .undefined => isFalse (fun h => Json.noConfusion h)
  | .arr _, .null => isFalse (fun h => Json.noConfusion h)
  | .arr _, .bool _ => isFalse (fun h => Json.noConfusion h)
  | .arr _, .num _ => isFalse (fun h => Json.noConfusion h)
  | .arr _, .str _ => isFalse (fun h => Json.noConfusion h)
  | .arr _, .obj _ => isFalse (fun h => Json.noConfusion h)
  | .obj _, .undefined => isFalse (fun h => Json.noConfusion h)
  | .obj _, .null => isFalse (fun h => Json.noConfusion h)
  | .obj _, .bool _ => isFalse (fun h => Json.noConfusion h)
  | .obj _, .num _ => isFalse (fun h => Json.noConfusion h)
  | .obj _, .str _ => isFalse (fun h => Json.noConfusion h)
  | .obj _, .arr _ => isFalse (fun h => Json.noConfusion h)

/-- Decidable equality on lists of Json values. -/
def decEqJsonList : (a b : List Json) → Decidable (a = b)
  | [], [] => isTrue rfl
  | [], _ :: _ => isFalse (fun h => List.noConfusion h)
  | _ :: _, [] => isFalse (fun h => List.noConfusion h)
  | x :: xs, y :: ys =>
    match decEqJson x y with
    | isFalse h => isFalse (fun hh => h (List.cons.inj hh).1)
    | isTrue h1 =>
      match decEqJsonList xs ys with
      | isTrue h2 => isTrue (by rw [h1, h2])
      | isFalse h => isFalse (fun hh => h (List.cons.inj hh).2)

/-- Decidable equality on Json object field lists. -/
def decEqJsonFields : (a b : List (String × Json)) → Decidable (a = b)
  | [], [] => isTrue rfl
  | [], _ :: _ => isFalse (fun h => List.noConfusion h)
  | _ :: _, [] => isFalse (fun h => List.noConfusion h)
  | (k1, v1) :: xs, (k2, v2) :: ys =>
    match decEq k1 k2 with
    | isFalse h => isFalse (by intro hh; injection hh with h1 h2; injection h1; contradiction)
    | isTrue hk =>
      match decEqJson v1 v2 with
      | isFalse h => isFalse (by intro hh; injection hh with h1 h2; injection h1; contradiction)
      | isTrue hv =>
        match decEqJsonFields xs ys with
        | isTrue ht => isTrue (by rw [hk, hv, ht])
        | isFalse h => isFalse (fun hh => h (List.cons.inj hh).2)

end

instance : DecidableEq Json := decEqJson

/-- JavaScript truthiness: undefined, null, false, 0 and the empty string are
falsy; every object and array is truthy. -/
def jsTruthy : Json → Bool
  | .undefined => false
  | .null => false
  | .bool b => b
  | .num q => decide (q ≠ 0)
  | .str s => decide (s ≠ "")
  | .arr _ => true
  | .obj _ => true

/-- Property access `v.k`.  On non-objects (and for missing keys) it yields
undefined.  (JavaScript throws on a null or undefined receiver; every access
in the modelled code is guarded by a truthiness check or performed on a
parsed object, so the total model agrees on all modelled paths.) -/
def getField : Json → String → Json
  | .obj fs, k =>
    match fs.find? (fun f => f.1 == k) with
    | some f => f.2
    | none => .undefined
  | _, _ => .undefined

/-- JavaScript `a || b`. -/
def jsOr (a b : Json) : Json := if jsTruthy a then a else b

/-- Object member insertion with JavaScript duplicate-key semantics: a
repeated key keeps its original position but takes the new value. -/
def setField : List (String × Json) → String → Json → List (String × Json)
  | [], k, v => [(k, v)]
  | (k2, v2) :: rest, k, v =>
    if k2 = k then (k2, v) :: rest else (k2, v2) :: setField rest k v

/-! ## JSON.parse -/

def isJsonDigit (c : Char) : Bool := '0' ≤ c && c ≤ '9'

/-- The four whitespace characters of the JSON grammar. -/
def isJsonWs (c : Char) : Bool := c = ' ' || c = '\t' || c = '\n' || c = '\r'

def skipJsonWs (cs : List Char) : List Char := cs.dropWhile isJsonWs

def digitsToNat (ds : List Char) : Nat :=
  ds.foldl (fun a c => a * 10 + (c.toNat - '0'.toNat)) 0

def hexVal (c : Char) : Option Nat :=
  if '0' ≤ c && c ≤ '9' then some (c.toNat - '0'.toNat)
  else if 'a' ≤ c && c ≤ 'f' then some (10 + c.toNat - 'a'.toNat)
  else if 'A' ≤ c && c ≤ 'F' then some (10 + c.toNat - 'A'.toNat)
  else none

/-- Body of a JSON string literal (after the opening quote); returns the
decoded characters and the remainder after the closing quote.  Escapes and
the rejection of raw control characters follow the JSON grammar.  (A \u
escape denoting a lone surrogate is mapped through Char.ofNat; no modelled
input contains one.) -/
def parseStringBody : List Char → Option (List Char × List Char)
  | [] => none
  | '"' :: rest => some ([], rest)
  | '\\' :: esc => (match esc with
      | '"' :: r => (parseStringBody r).map (fun p => ('"' :: p.1, p.2))
      | '\\' :: r => (parseStringBody r).map (fun p => ('\\' :: p.1, p.2))
      | '/' :: r => (parseStringBody r).map (fun p => ('/' :: p.1, p.2))
      | 'b' :: r => (parseStringBody r).map (fun p => ('\x08' :: p.1, p.2))
      | 'f' :: r => (parseStringBody r).map (fun p => ('\x0c' :: p.1, p.2))
      | 'n' :: r => (parseStringBody r).map (fun p => ('\n' :: p.1, p.2))
      | 'r' :: r => (parseStringBody r).map (fun p => ('\r' :: p.1, p.2))
      | 't' :: r => (parseStringBody r).map (fun p => ('\t' :: p.1, p.2))
      | 'u' :: a :: b :: c :: d :: r =>
        match hexVal a, hexVal b, hexVal c, hexVal d with
        | some ha, some hb, some hc, some hd =>
          (parseStringBody r).map
            (fun p => (Char.ofNat (((ha * 16 + hb) * 16 + hc) * 16 + hd) :: p.1, p.2))
        | _, _, _, _ => none
      | _ => none)
  | c :: rest =>
    if c.toNat < 0x20 then none
    else (parseStringBody rest).map (fun p => (c :: p.1, p.2))

/-- Builds the rational value of a parsed number token:
sign, integer part, fraction digits, decimal exponent. -/
def mkNum (neg : Bool) (ip : Nat) (fds : List Char) (e : Int) : Json :=
  let mag : Nat := ip * 10 ^ fds.length + digitsToNat fds
  let sgn : Int := if neg then -(mag : Int) else (mag : Int)
  let e2 : Int := e - fds.length
  if 0 ≤ e2 then .num (mkRat (sgn * 10 ^ e2.toNat) 1)
  else .num (mkRat sgn (10 ^ (-e2).toNat))

/-- Number token: optional exponent part (after integer and fraction). -/
def parseNumAfterFrac (neg : Bool) (ip : Nat) (fds : List Char) :
    List Char → Option (Json × List Char)
  | c :: r =>
    if c = 'e' || c = 'E' then
      let signAndRest : Int × List Char :=
        match r with
        | '+' :: r2 => (1, r2)
        | '-' :: r2 => (-1, r2)
        | _ => (1, r)
      let eds := signAndRest.2.takeWhile isJsonDigit
      if eds.isEmpty then none
      else some (mkNum neg ip fds (signAndRest.1 * (digitsToNat eds : Int)),
                 signAndRest.2.dropWhile isJsonDigit)
    else some (mkNum neg ip fds 0, c :: r)
  | [] => some (mkNum neg ip fds 0, [])

/-- Number token: optional fraction part (after the integer part). -/
def parseNumAfterInt (neg : Bool) (ip : Nat) : List Char → Option (Json × List Char)
  | '.' :: r =>
    let ds := r.takeWhile isJsonDigit
    if ds.isEmpty then none
    else parseNumAfterFrac neg ip ds (r.dropWhile isJsonDigit)
  | cs => parseNumAfterFrac neg ip [] cs

/-- JSON number token per the JSON grammar (leading zeros rejected). -/
def parseNumberToken (cs : List Char) : Option (Json × List Char) :=
  let signAndRest : Bool × List Char :=
    match cs with
    | '-' :: r => (true, r)
    | _ => (false, cs)
  match signAndRest.2 with
  | '0' :: r => parseNumAfterInt signAndRest.1 0 r
  | c :: r =>
    if isJsonDigit c then
      let all := c :: r
      parseNumAfterInt signAndRest.1 (digitsToNat (all.takeWhile isJsonDigit))
        (all.dropWhile isJsonDigit)
    else none
  | [] => none

mutual

/-- One JSON value, assuming leading whitespace already skipped.  Fuel bounds
the recursion; the top-level wrapper supplies fuel ample for any input. -/
def parseValue : Nat → List Char → Option (Json × List Char)
  | 0, _ => none
  | fuel + 1, cs =>
    match cs with
    | 'n' :: 'u' :: 'l' :: 'l' :: r => some (.null, r)
    | 't' :: 'r' :: 'u' :: 'e' :: r => some (.bool true, r)
    | 'f' :: 'a' :: 'l' :: 's' :: 'e' :: r => some (.bool false, r)
    | '"' :: r => (parseStringBody r).map (fun p => (.str (String.mk p.1), p.2))
    | '[' :: r =>
      let r1 := skipJsonWs r
      (match r1 with
       | ']' :: r2 => some (.arr [], r2)
       | _ => parseElems fuel [] r1)
    | '{' :: r =>
      let r1 := skipJsonWs r
      (match r1 with
       | '}' :: r2 => some (.obj [], r2)
       | _ => parseMembers fuel [] r1)
    | _ => parseNumberToken cs

/-- Array elements after the first opening bracket (non-empty case). -/
def parseElems : Nat → List Json → List Char → Option (Json × List Char)
  | 0, _, _ => none
  | fuel + 1, acc, cs =>
    match parseValue fuel cs with
    | none => none
    | some (v, rest) =>
      match skipJsonWs rest with
      | ',' :: r2 => parseElems fuel (v :: acc) (skipJsonWs r2)
      | ']' :: r2 => some (.arr (v :: acc).reverse, r2)
      | _ => none

/-- Object members after the opening brace (non-empty case). -/
def parseMembers : Nat → List (String × Json) → List Char → Option (Json × List Char)
  | 0, _, _ => none
  | fuel + 1, acc, cs =>
    match cs with
    | '"' :: r =>
      (match parseStringBody r with
       | none => none
       | some (kcs, r2) =>
         match skipJsonWs r2 with
         | ':' :: r3 =>
           (match parseValue fuel (skipJsonWs r3) with
            | none => none
            | some (v, r4) =>
              let acc2 := setField acc (String.mk kcs) v
              match skipJsonWs r4 with
              | ',' :: r5 => parseMembers fuel acc2 (skipJsonWs r5)
              | '}' :: r5 => some (.obj acc2, r5)
              | _ => none)
         | _ => none)
    | _ => none

end

/-- JSON.parse: strict parse of a whole character sequence; `none` models a
thrown SyntaxError.  The fuel is ample: every recursive step consumes input
or descends into it. -/
def jsonParse (cs : List Char) : Option Json :=
  match parseValue (2 * cs.length + 8) (skipJsonWs cs) with
  | some (v, rest) => if (skipJsonWs rest).isEmpty then some v else none
  | none => none

def jsonParseStr (s : String) : Option Json := jsonParse s.data

/-! ## JSON.stringify and String() -/

def hexDigitChar (n : Nat) : Char :=
  if n < 10 then Char.ofNat ('0'.toNat + n) else Char.ofNat ('a'.toNat + (n - 10))

/-- Number printing shared by JSON.stringify and String().  Integers print as
their digits, which matches JavaScript exactly; other finite decimals print
with a decimal point.  (JavaScript prints IEEE doubles; on the exact small
decimals this model manipulates the two agree.  The final branch, reachable
only for denominators outside 10^0..10^63, is an approximation never used by
any theorem below.) -/
def ratToString (q : Rat) : String :=
  if q.den = 1 then toString q.num
  else
    match (List.range 64).find? (fun k => 10 ^ k % q.den = 0) with
    | some k =>
      let m : Int := q.num * (10 ^ k : Int) / (q.den : Int)
      let sgnStr := if m < 0 then "-" else ""
      let digs := (toString m.natAbs).data
      let padded := if digs.length ≤ k then List.replicate (k + 1 - digs.length) '0' ++ digs else digs
      let n := padded.length
      sgnStr ++ String.mk (padded.take (n - k)) ++ "." ++ String.mk (padded.drop (n - k))
    | none => toString q.num ++ "/" ++ toString q.den

/-- JSON.stringify escaping of one string character. -/
def escJsonChar (c : Char) : List Char :=
  if c = '"' then ['\\', '"']
  else if c = '\\' then ['\\', '\\']
  else if c = '\x08' then ['\\', 'b']
  else if c = '\t' then ['\\', 't']
  else if c = '\n' then ['\\', 'n']
  else if c = '\x0c' then ['\\', 'f']
  else if c = '\r' then ['\\', 'r']
  else if c.toNat < 0x20 then
    ['\\', 'u', '0', '0', hexDigitChar (c.toNat / 16), hexDigitChar (c.toNat % 16)]
  else [c]

def quoteJsonString (s : String) : String :=
  "\"" ++ String.mk (s.data.foldr (fun c acc => escJsonChar c ++ acc) []) ++ "\""

mutual

/-- JSON.stringify.  `none` models the undefined result (stringifying the
undefined value); inside arrays undefined prints as null, inside objects the
member is omitted, following JavaScript. -/
def stringifyO : Json → Option String
  | .undefined => none
  | .null => some "null"
  | .bool b => some (if b then "true" else "false")
  | .num q => some (ratToString q)
  | .str s => some (quoteJsonString s)
  | .arr es => some ("[" ++ String.intercalate "," (stringifyArr es) ++ "]")
  | .obj fs => some ("\x7b" ++ String.intercalate "," (stringifyObj fs) ++ "\x7d")

/-- Array elements under JSON.stringify. -/
def stringifyArr : List Json → List String
  | [] => []
  | j :: js =>
    (match stringifyO j with
     | some s => s
     | none => "null") :: stringifyArr js

/-- Object members under JSON.stringify (undefined-valued members omitted). -/
def stringifyObj : List (String × Json) → List String
  | [] => []
  | (k, v) :: fs =>
    match stringifyO v with
    | some s => (quoteJsonString k ++ ":" ++ s) :: stringifyObj fs
    | none => stringifyObj fs

end

/-- The value pushed by `textCandidates.push(JSON.stringify(gem))`: the
stringified text, or the undefined value when stringify yields none. -/
def jsonStringifyJs (v : Json) : Json :=
  match stringifyO v with
  | some s => .str s
  | none => .undefined

mutual

/-- The String() conversion: String(null), String(5), String([1,2]) and so
on, as used for candidate display and text fields. -/
def jsToString : Json → String
  | .undefined => "undefined"
  | .null => "null"
  | .bool b => if b then "true" else "false"
  | .num q => ratToString q
  | .str s => s
  | .arr es => String.intercalate "," (jsToStringElems es)
  | .obj _ => "[object Object]"

/-- Array elements under String(): null and undefined print as empty. -/
def jsToStringElems : List Json → List String
  | [] => []
  | .undefined :: js => "" :: jsToStringElems js
  | .null :: js => "" :: jsToStringElems js
  | j :: js => jsToString j :: jsToStringElems js

end

/-! ## The Structured-Response Extractor (extractJSONFromText, lines 69-110)

The fenced-block scan models the global regex
three-backticks (json)? whitespace* (lazy content) three-backticks :
matches are found left to right, the optional tag is case-insensitive, the
closing fence is the first fence after the content start, and scanning
resumes after the closing fence.  The regex strips leading whitespace from
the capture; since the code immediately trims the capture, the model folds
that into the trim. -/

/-- Whitespace for the regex classes and String.trim (ASCII part; the
Unicode whitespace characters also matched by JavaScript do not occur in any
modelled text). -/
def isRegexWs (c : Char) : Bool :=
  c = ' ' || c = '\t' || c = '\n' || c = '\r' || c = '\x0b' || c = '\x0c'

def trimChars (cs : List Char) : List Char :=
  ((cs.dropWhile isRegexWs).reverse.dropWhile isRegexWs).reverse

/-- Splits at the first triple-backtick fence: the text before it and the
text after it. -/
def splitFence : List Char → Option (List Char × List Char)
  | '`' :: '`' :: '`' :: rest => some ([], rest)
  | c :: rest => (splitFence rest).map (fun p => (c :: p.1, p.2))
  | [] => none

/-- Consumes an optional case-insensitive json tag right after an opening
fence. -/
def dropJsonTag (cs : List Char) : List Char :=
  match cs with
  | a :: b :: c :: d :: rest =>
    if a.toLower = 'j' && b.toLower = 's' && c.toLower = 'o' && d.toLower = 'n'
    then rest else cs
  | _ => cs

/-- All fenced-block captures, in order of appearance.  If the leftmost
opening fence has no closing fence after its optional tag, the regex can
match nowhere (the skipped tag characters contain no backtick), so the scan
stops. -/
def fencedBlocksAux : Nat → List Char → List (List Char)
  | 0, _ => []
  | fuel + 1, cs =>
    match splitFence cs with
    | none => []
    | some (_, afterOpen) =>
      match splitFence (dropJsonTag afterOpen) with
      | none => []
      | some (content, rest) => content :: fencedBlocksAux fuel rest

def fencedBlocks (cs : List Char) : List (List Char) :=
  fencedBlocksAux cs.length cs

def firstBraceIdx (cs : List Char) : Option Nat := cs.findIdx? (· = '{')

def lastBraceIdx (cs : List Char) : Option Nat :=
  match cs.reverse.findIdx? (· = '}') with
  | some k => some (cs.length - 1 - k)
  | none => none

/-- text.slice(a, b) on characters. -/
def sliceChars (cs : List Char) (a b : Nat) : List Char := (cs.drop a).take (b - a)

/-- The naive nested scan of step 3 of the extractor: every opening brace at
or after the first one (ascending), every closing brace from the last one
(descending), first substring that parses wins. -/
def braceScan (cs : List Char) (firstB lastB : Nat) : Option Json :=
  (List.range' firstB (lastB - firstB)).findSome? fun i =>
    if cs[i]? ≠ some '{' then none
    else ((List.range' (i + 1) (lastB - i)).reverse).findSome? fun j =>
      if cs[j]? ≠ some '}' then none
      else jsonParse (sliceChars cs i (j + 1))

/-- extractJSONFromText on a non-empty string: fenced blocks first (first
block whose trimmed content parses), then the first-to-last brace substring,
then the naive brace scan, else null. -/
def extractCore (s : String) : Option Json :=
  let cs := s.data
  match (fencedBlocks cs).findSome? (fun b => jsonParse (trimChars b)) with
  | some v => some v
  | none =>
    match firstBraceIdx cs, lastBraceIdx cs with
    | some fb, some lb =>
      if lb > fb then
        match jsonParse (sliceChars cs fb (lb + 1)) with
        | some v => some v
        | none => braceScan cs fb lb
      else none
    | _, _ => none

/-- extractJSONFromText (lines 69-110).  The argument is the JavaScript
value passed in; a non-string or empty-string argument returns null
immediately.  `none` models the null return. -/
def extractJSONFromText : Json → Option Json
  | .str s => if s = "" then none else extractCore s
  | _ => none

/-! ## Search Client (webSearch, lines 19-35)

Network effects are modelled by passing the outcome of the single fetch as a
parameter.  A timeout of the race in timeoutPromise rejects with
Error("timeout"), which the catch stringifies. -/

inductive SearchOutcome where
  | ok (body : Json)
  | httpErr (status : Nat) (txt : String)
  | fetchErr (msg : String)
  | timeout
  deriving DecidableEq, Repr

/-- webSearch: with no configured key or on any provider failure it returns
a tagged error object; it is a total function (the JavaScript body catches
every rejection), so it never throws. -/
def webSearch (hasKey : Bool) (o : SearchOutcome) : Json :=
  if !hasKey then .obj [("error", .str "SERPAPI_KEY not configured")]
  else
    match o with
    | .ok body => body
    | .httpErr st txt => .obj [("error", .str ("SerpApi HTTP " ++ toString st ++ ": " ++ txt))]
    | .fetchErr m => .obj [("error", .str ("SerpApi fetch error: " ++ m))]
    | .timeout => .obj [("error", .str "SerpApi fetch error: Error: timeout")]

def isJsonArr : Json → Bool
  | .arr _ => true
  | _ => false

/-- Snippet construction (lines 121-129): up to five organic results are
projected to title/snippet/link with the fallback fields of the source; a
tagged search error becomes one synthetic search-error snippet. -/
def buildSnippets (web : Json) : List Json :=
  let org := getField web "organic_results"
  if jsTruthy web && jsTruthy org && isJsonArr org then
    match org with
    | .arr items =>
      (items.take 5).map (fun item =>
        .obj [("title", getField item "title"),
              ("snippet", jsOr (getField item "snippet") (jsOr (getField item "description") (.str ""))),
              ("link", jsOr (getField item "link") (getField item "source"))])
    | _ => []
  else if jsTruthy web && jsTruthy (getField web "error") then
    [.obj [("title", .str "search-error"), ("snippet", getField web "error")]]
  else []

/-! ## Model Client (askGemini, lines 37-65) -/

inductive GemOutcome where
  | ok (status : Nat) (body : Json)
  | fetchErr (msg : String)
  | timeout
  deriving DecidableEq, Repr

/-- askGemini: throws (Except.error) when the key is missing, rethrows fetch
failures and timeouts with a prefixed message, and otherwise returns the
parsed response body without inspecting the HTTP status (the code never
reads r.ok or r.status). -/
def askGemini (hasKey : Bool) (o : GemOutcome) : Except String Json :=
  if !hasKey then .error "GEMINI_API_KEY not set in server environment."
  else
    match o with
    | .ok _ body => .ok body
    | .fetchErr m => .error ("Gemini call failed: " ++ m)
    | .timeout => .error "Gemini call failed: timeout"

/-! ## Candidate collection (lines 157-190) -/

/-- Fragments gathered from one candidate content value: a list of parts
each contributing a string text field or being itself a string, or a plain
string content. -/
def candContentFragments (content : Json) : List Json :=
  match content with
  | .arr cs =>
    cs.flatMap (fun c =>
      match getField c "text" with
      | .str s => [Json.str s]
      | _ =>
        match c with
        | .str s2 => [Json.str s2]
        | _ => [])
  | .str s => [Json.str s]
  | _ => []

/-- Fragments gathered from one element of gem.candidates (lines 161-174):
content parts, then a stringified display field, then a stringified text
field, each only when truthy. -/
def candFragments (cand : Json) : List Json :=
  (if jsTruthy (getField cand "content") then candContentFragments (getField cand "content") else [])
  ++ (if jsTruthy (getField cand "display") then [.str (jsToString (getField cand "display"))] else [])
  ++ (if jsTruthy (getField cand "text") then [.str (jsToString (getField cand "text"))] else [])

/-- Fragments gathered from one element of the older gem.output shape
(lines 179-186); note these push the raw text values, without String(). -/
def outFragments (out1 : Json) : List Json :=
  (match getField out1 "content" with
   | .arr cs => cs.flatMap (fun c => if jsTruthy (getField c "text") then [getField c "text"] else [])
   | _ => [])
  ++ (if jsTruthy (getField out1 "text") then [getField out1 "text"] else [])

/-- All plausible text fragments of the provider response, in encounter
order (lines 157-187), before the stringified-response last resort. -/
def collectTextCandidates (gem : Json) : List Json :=
  if jsTruthy gem then
    (match getField gem "candidates" with
     | .arr cs => if cs.isEmpty then [] else cs.flatMap candFragments
     | _ => [])
    ++ (match getField gem "output" with
        | .arr os => os.flatMap outFragments
        | _ => [])
  else []

/-- The full candidate list including the stringified whole response
(line 190). -/
def textCandidates (gem : Json) : List Json :=
  collectTextCandidates gem ++ [jsonStringifyJs gem]

/-- The extraction loop of lines 193-197: parsed is overwritten by each
extraction in turn and the loop breaks at the first truthy value.  A falsy
parse (null, false, 0, the empty string) does not break and can never pass
the later acceptance test, so the loop is summarised by its first truthy
extraction. -/
def findTruthyParsed : List Json → Option Json
  | [] => none
  | t :: ts =>
    match extractJSONFromText t with
    | some v => if jsTruthy v then some v else findTruthyParsed ts
    | none => findTruthyParsed ts

/-- The acceptance test of line 199: parsed is truthy and its
recommended_ids property is an array. -/
def recommendedIdsIsArray (v : Json) : Bool :=
  jsTruthy v && isJsonArr (getField v "recommended_ids")

/-! ## Fallback Heuristic (lines 207-221) and catalog -/

/-- The typed Product of the data model; the catalog the client always
posts. -/
structure Product where
  id : String
  name : String
  price : Int
  category : String
  features : List String
  deriving DecidableEq, Repr

/-- The fixed six-item catalog of AIProductRecommender.jsx (lines 3-10). -/
def PRODUCTS : List Product :=
  [⟨"p1", "PocketPhone A1", 299, "phone", ["5.5in", "64GB", "dual-sim"]⟩,
   ⟨"p2", "PocketPhone Pro", 549, "phone", ["6.2in", "128GB", "fast-charge"]⟩,
   ⟨"p3", "BudgetPhone B2", 199, "phone", ["5.0in", "32GB"]⟩,
   ⟨"p4", "CameraZoom X", 699, "camera", ["50MP", "optical-zoom"]⟩,
   ⟨"p5", "WorkTablet T1", 429, "tablet", ["10in", "64GB"]⟩,
   ⟨"p6", "Lifestyle Earbuds", 89, "audio", ["noise-cancel", "bluetooth 5.2"]⟩]

def lowerStr (s : String) : String := String.mk (s.data.map Char.toLower)

/-- After a matched keyword: optional whitespace, an optional dollar sign,
then one to six digits (greedily), as in the price-ceiling regex. -/
def priceAfterKeyword (cs : List Char) : Option Nat :=
  let cs1 := cs.dropWhile isRegexWs
  let cs2 :=
    match cs1 with
    | '$' :: r => r
    | _ => cs1
  let ds := (cs2.takeWhile isJsonDigit).take 6
  if ds.isEmpty then none else some (digitsToNat ds)

/-- The regex (under|below|<) whitespace* dollar? digits 1-6 applied to the
lowered query: positions are tried left to right; at a position at most one
alternative can match, and a keyword match without following digits makes
the whole attempt at that position fail. -/
def findPriceCeiling : List Char → Option Nat
  | [] => none
  | c :: rest =>
    match
      (if "under".data.isPrefixOf (c :: rest) then priceAfterKeyword ((c :: rest).drop 5)
       else if "below".data.isPrefixOf (c :: rest) then priceAfterKeyword ((c :: rest).drop 5)
       else if c = '<' then priceAfterKeyword rest
       else none)
    with
    | some n => some n
    | none => findPriceCeiling rest

/-- Splitting on whitespace runs with empty tokens discarded, as
split on a whitespace-plus regex followed by filter(Boolean). -/
def splitWsAux : List Char → List Char → List String
  | [], acc => if acc.isEmpty then [] else [String.mk acc.reverse]
  | c :: rest, acc =>
    if isRegexWs c then
      if acc.isEmpty then splitWsAux rest []
      else String.mk acc.reverse :: splitWsAux rest []
    else splitWsAux rest (c :: acc)

def splitWsTokens (s : String) : List String := splitWsAux s.data []

/-- Substring containment, String.prototype.includes. -/
def containsSub (needle : List Char) : List Char → Bool
  | [] => needle.isEmpty
  | c :: t => needle.isPrefixOf (c :: t) || containsSub needle t

/-- One token hits a product if it occurs in the lowered name, the category
as written, or the lowered space-joined feature list (line 216). -/
def tokenHits (p : Product) (t : String) : Bool :=
  containsSub t.data (lowerStr p.name).data
    || containsSub t.data p.category.data
    || containsSub t.data (lowerStr (String.intercalate " " p.features)).data

def productScore (tokens : List String) (p : Product) : Nat :=
  tokens.countP (fun t => tokenHits p t)

/-- Stable insertion for a descending sort: a new element goes after every
already-placed element of greater or equal score. -/
def insertByScoreDesc (score : Product → Nat) (x : Product) : List Product → List Product
  | [] => [x]
  | y :: ys => if score y < score x then x :: y :: ys else y :: insertByScoreDesc score x ys

/-- The stable descending sort of line 213 (Array.prototype.sort is stable
and the comparator is the score difference). -/
def sortByScoreDesc (score : Product → Nat) (ps : List Product) : List Product :=
  ps.foldl (fun acc x => insertByScoreDesc score x acc) []

/-- The fallback heuristic (lines 207-221): lower the query, detect a price
ceiling, filter, tokenize, stable-sort by descending token-hit score, and
take the first three ids. -/
def fallbackIds (query : String) (products : List Product) : List String :=
  let lower := lowerStr query
  let maxPrice := findPriceCeiling lower.data
  let filtered :=
    match maxPrice with
    | some m => products.filter (fun p => p.price ≤ (m : Int))
    | none => products
  let tokens := splitWsTokens lower
  let sorted := sortByScoreDesc (productScore tokens) filtered
  (sorted.take 3).map (fun p => p.id)

/-- The fallback response body (lines 223-230). -/
def fallbackResponse (query : String) (products : List Product)
    (snippets : List Json) (cands : List Json) : Json :=
  .obj [("recommended_ids", .arr ((fallbackIds query products).map Json.str)),
        ("reason", .str "Fallback heuristic (Gemini did not return machine-readable JSON)."),
        ("sources", .arr snippets),
        ("debug", .obj [("gemini_candidates_tried", .arr (cands.take 3))])]

/-! ## The /api/recommend endpoint (lines 112-236) -/

structure Resp where
  status : Nat
  body : Json
  deriving DecidableEq, Repr

/-- The endpoint handler.  The request body is modelled as an optional query
string (none for an absent field) and the typed catalog the client posts.
The outcomes of the two outbound calls are explicit parameters; the prompt
string only feeds the model call, whose outcome is already a parameter, so
it is not materialised.  A thrown model error reaches the outer catch and is
stringified with the Error prefix. -/
def handler (serpKey : Bool) (searchO : SearchOutcome) (gemKey : Bool) (gemO : GemOutcome)
    (query : Option String) (products : List Product) : Resp :=
  match query with
  | none => ⟨400, .obj [("error", .str "missing query")]⟩
  | some q =>
    if q = "" then ⟨400, .obj [("error", .str "missing query")]⟩
    else
      let web := webSearch serpKey searchO
      let snippets := buildSnippets web
      match askGemini gemKey gemO with
      | .error e => ⟨500, .obj [("error", .str ("Error: " ++ e))]⟩
      | .ok gem =>
        let cands := textCandidates gem
        match findTruthyParsed cands with
        | some v =>
          if recommendedIdsIsArray v then ⟨200, v⟩
          else ⟨200, fallbackResponse q products snippets cands⟩
        | none => ⟨200, fallbackResponse q products snippets cands⟩

/-- The client-side boundary check of handleRecommend (jsx lines 33-36): a
query whose trim is empty is rejected before any request is sent. -/
def handleRecommendRejects (query : String) : Bool :=
  (trimChars query.data).isEmpty

/-! ## Helper lemmas -/

theorem isJsonArr_exists {x : Json} (h : isJsonArr x = true) : ∃ l, x = Json.arr l := by
  cases x <;> simp [isJsonArr] at h ⊢

theorem fallbackIds_length_le_three (q : String) (ps : List Product) :
    (fallbackIds q ps).length ≤ 3 := by
  simp only [fallbackIds, List.length_map, List.length_take]
  omega

/-! ## Claim theorems -/

/-- Concrete response body used by the C1 counterexample: a model response
whose first text candidate holds unfenced JSON without recommended_ids and
whose second candidate holds an accepted fenced block. -/
def c1Gem : Json :=
  .obj [("candidates", .arr [
    .obj [("content", .str "\x7b\"x\":1\x7d")],
    .obj [("content", .str "```json\n\x7b\"recommended_ids\":[]\x7d\n```")]])]

/-- Claim C1 counterexample: with the response c1Gem, the first candidate
extracts to the truthy object with field x (which fails the acceptance
rule), the loop stops there, and the endpoint returns the fallback response,
even though the second candidate extracts to an accepted value.  The claim
asserts the later candidate would be tried and accepted; it is not. -/
theorem c1_counterexample :
    (handler false (.ok Json.null) true (.ok 200 c1Gem) (some "x") []).status = 200 ∧
    getField (handler false (.ok Json.null) true (.ok 200 c1Gem) (some "x") []).body "reason" =
      .str "Fallback heuristic (Gemini did not return machine-readable JSON)." ∧
    extractJSONFromText ((textCandidates c1Gem).getD 0 .null) = some (.obj [("x", .num 1)]) ∧
    recommendedIdsIsArray (.obj [("x", .num 1)]) = false ∧
    extractJSONFromText ((textCandidates c1Gem).getD 1 .null) =
      some (.obj [("recommended_ids", .arr [])]) ∧
    recommendedIdsIsArray (.obj [("recommended_ids", .arr [])]) = true := by
  decide

/-- Claim C1 as amended: the extraction loop stops at the first candidate
whose extraction yields a truthy value, whatever it is; the acceptance rule
is applied only once, after the loop, so a truthy-but-unaccepted extraction
does prevent later candidates from being tried, and routes the request to
the fallback. -/
theorem c1_first_truthy_extraction_wins :
    (∀ (t : Json) (rest : List Json) (v : Json),
      extractJSONFromText t = some v → jsTruthy v = true →
      findTruthyParsed (t :: rest) = some v) ∧
    (∀ (sk : Bool) (o : SearchOutcome) (st : Nat) (gem : Json) (q : String)
        (ps : List Product) (v : Json),
      q ≠ "" →
      findTruthyParsed (textCandidates gem) = some v →
      recommendedIdsIsArray v = false →
      handler sk o true (.ok st gem) (some q) ps =
        ⟨200, fallbackResponse q ps (buildSnippets (webSearch sk o)) (textCandidates gem)⟩) := by
  constructor
  · intro t rest v h1 h2
    simp [findTruthyParsed, h1, h2]
  · intro sk o st gem q ps v hq hfind hacc
    simp [handler, hq, askGemini, hfind, hacc]

/-- Witness for C1: the amended theorem applied at a concrete candidate list
and a concrete request. -/
theorem c1_witness :
    findTruthyParsed (.str "\x7b\"x\":1\x7d" :: [.str "ignored"]) = some (.obj [("x", .num 1)]) ∧
    handler false (.ok Json.null) true (.ok 200 c1Gem) (some "x") [] =
      ⟨200, fallbackResponse "x" [] (buildSnippets (webSearch false (.ok Json.null)))
        (textCandidates c1Gem)⟩ :=
  ⟨c1_first_truthy_extraction_wins.1 (.str "\x7b\"x\":1\x7d") [.str "ignored"]
      (.obj [("x", .num 1)]) (by decide) (by decide),
   c1_first_truthy_extraction_wins.2 false (.ok Json.null) 200 c1Gem "x" []
      (.obj [("x", .num 1)]) (by decide) (by decide) (by decide)⟩

/-- Text used by the C2 counterexample: two fenced blocks, the first parsing
to the number 1, the second to an object with a recommended_ids array. -/
def c2Text : String :=
  "```json\n1\n```\n```json\n\x7b\"recommended_ids\":[]\x7d\n```"

/-- Claim C2 counterexample: c2Text contains a valid fenced JSON block whose
parsed object has recommended_ids as an array (its second block), yet the
Extractor returns the number 1 parsed from the earlier block, not that
object. -/
theorem c2_counterexample :
    extractJSONFromText (.str c2Text) = some (.num 1) ∧
    trimChars ((fencedBlocks c2Text.data).getD 1 []) = "\x7b\"recommended_ids\":[]\x7d".data ∧
    jsonParseStr "\x7b\"recommended_ids\":[]\x7d" = some (.obj [("recommended_ids", .arr [])]) ∧
    Json.num 1 ≠ .obj [("recommended_ids", .arr [])] := by
  decide

/-- Claim C2 as amended: fenced blocks are scanned in order of appearance,
each trimmed and strictly parsed, and the value of the first successfully
parsing fenced block is what the Extractor returns, taking priority over any
unfenced JSON elsewhere in the text; in particular the fenced scenario of
the specification extracts its recommended_ids object. -/
theorem c2_first_parsing_fenced_block_returned :
    (∀ (s : String) (v : Json),
      (fencedBlocks s.data).findSome? (fun b => jsonParse (trimChars b)) = some v →
      extractJSONFromText (.str s) = some v) ∧
    extractJSONFromText
        (.str "Sure! ```json\n\x7b\"recommended_ids\":[\"p1\"],\"reason\":\"ok\",\"sources\":[]\x7d\n```") =
      some (.obj [("recommended_ids", .arr [.str "p1"]), ("reason", .str "ok"),
        ("sources", .arr [])]) := by
  constructor
  · intro s v h
    by_cases hs : s = ""
    · subst hs
      have hnone : (fencedBlocks "".data).findSome? (fun b => jsonParse (trimChars b)) = none := rfl
      rw [hnone] at h
      exact Option.noConfusion h
    · simp only [extractJSONFromText, if_neg hs, extractCore]
      rw [h]
  · decide

/-- Witness for C2: the amended theorem applied to the two-block text, whose
first parsing fenced block holds the number 1. -/
theorem c2_witness : extractJSONFromText (.str c2Text) = some (.num 1) :=
  c2_first_parsing_fenced_block_returned.1 c2Text (.num 1) (by decide)

/-- Claim C3 counterexample: a text with no brace at all whose fenced block
parses as a JSON array; the Extractor returns that array, not null. -/
theorem c3_counterexample :
    extractJSONFromText (.str "```json\n[1, 2]\n```") = some (.arr [.num 1, .num 2]) ∧
    '{' ∉ "```json\n[1, 2]\n```".data ∧
    '}' ∉ "```json\n[1, 2]\n```".data ∧
    extractJSONFromText (.str "```json\n[1, 2]\n```") ≠ none := by
  decide

/-- Claim C3 as amended: for every input text containing no opening and no
closing brace, and containing no fenced code block whose trimmed content
parses as JSON, the Extractor returns null (it is a total function, so it
never throws). -/
theorem c3_no_braces_null :
    ∀ (s : String), '{' ∉ s.data → '}' ∉ s.data →
      (fencedBlocks s.data).findSome? (fun b => jsonParse (trimChars b)) = none →
      extractJSONFromText (.str s) = none := by
  intro s hob hcb hfence
  by_cases hs : s = ""
  · subst hs; rfl
  · simp only [extractJSONFromText, if_neg hs, extractCore]
    rw [hfence]
    have h1 : firstBraceIdx s.data = none := by
      simp only [firstBraceIdx]
      rw [List.findIdx?_eq_none_iff]
      intro x hx
      simp only [decide_eq_false_iff_not]
      intro hxeq
      exact hob (hxeq ▸ hx)
    rw [h1]

/-- Witness for C3: plain prose with no braces and no fence extracts to
null. -/
theorem c3_witness : extractJSONFromText (.str "hello world") = none :=
  c3_no_braces_null "hello world" (by decide) (by decide) (by decide)

/-- Claim C4 counterexample: the fallback result for the scenario query is
p1, p3, p5, and p5 is a tablet, so the returned ids are not the top 3 among
the remaining phone-category items (only two phone items survive the price
filter). -/
theorem c4_counterexample :
    fallbackIds "I want a phone under $500" PRODUCTS = ["p1", "p3", "p5"] ∧
    ∃ p ∈ PRODUCTS, p.id = "p5" ∧ p.category = "tablet" := by
  decide

/-- Claim C4 as amended: for the scenario query the heuristic detects price
ceiling 500, filters out the 549 and 699 items, scores the four survivors
3, 2, 2, 2 by token-substring hits, stable-sorts descending, and returns the
top 3 ids of the filtered catalog: the two surviving phone items first,
then the tablet. -/
theorem c4_scenario :
    findPriceCeiling (lowerStr "I want a phone under $500").data = some 500 ∧
    (PRODUCTS.filter (fun p => p.price ≤ (500 : Int))).map (fun p => p.id) =
      ["p1", "p3", "p5", "p6"] ∧
    (PRODUCTS.filter (fun p => p.price ≤ (500 : Int))).map
        (productScore (splitWsTokens (lowerStr "I want a phone under $500"))) =
      [3, 2, 2, 2] ∧
    fallbackIds "I want a phone under $500" PRODUCTS = ["p1", "p3", "p5"] := by
  decide

/-- Claim C5 counterexample: with the search key absent the snippet list is
the single synthetic search-error snippet, not the empty list the claim
asserts. -/
theorem c5_counterexample :
    buildSnippets (webSearch false (.ok Json.null)) =
      [Json.obj [("title", .str "search-error"),
        ("snippet", .str "SERPAPI_KEY not configured")]] ∧
    buildSnippets (webSearch false (.ok Json.null)) ≠ [] := by
  decide

/-- Claim C5 as amended: when the search key is absent, search is disabled
non-fatally: webSearch returns the tagged configuration error without being
attempted, and the request proceeds with the single synthetic search-error
snippet carrying that message (not with an empty snippet list). -/
theorem c5_missing_key_snippet (o : SearchOutcome) :
    webSearch false o = .obj [("error", .str "SERPAPI_KEY not configured")] ∧
    buildSnippets (webSearch false o) =
      [Json.obj [("title", .str "search-error"),
        ("snippet", .str "SERPAPI_KEY not configured")]] :=
  ⟨rfl, rfl⟩

/-- Claim C6: each provider failure of the Search Client (non-2xx status,
network failure, timeout) is returned as a tagged error object, never
thrown; a tagged error becomes the single synthetic search-error snippet;
and the search outcome never influences the response status, so no search
failure alone produces an error response. -/
theorem c6_search_failures_nonfatal :
    (∀ (st : Nat) (txt : String), webSearch true (.httpErr st txt) =
        .obj [("error", .str ("SerpApi HTTP " ++ toString st ++ ": " ++ txt))]) ∧
    (∀ m, webSearch true (.fetchErr m) =
        .obj [("error", .str ("SerpApi fetch error: " ++ m))]) ∧
    webSearch true .timeout = .obj [("error", .str "SerpApi fetch error: Error: timeout")] ∧
    (∀ s, s ≠ "" → buildSnippets (.obj [("error", .str s)]) =
        [Json.obj [("title", .str "search-error"), ("snippet", .str s)]]) ∧
    (∀ (sk sk2 : Bool) (o o2 : SearchOutcome) (gk : Bool) (go : GemOutcome)
        (q : Option String) (ps : List Product),
      (handler sk o gk go q ps).status = (handler sk2 o2 gk go q ps).status) := by
  refine ⟨fun _ _ => rfl, fun _ => rfl, rfl, ?_, ?_⟩
  · intro s hs
    simp [buildSnippets, getField, jsTruthy, isJsonArr, List.find?, hs]
  · intro sk sk2 o o2 gk go q ps
    cases q with
    | none => rfl
    | some qq =>
      by_cases hq : qq = ""
      · subst hq; rfl
      · simp only [handler, if_neg hq]
        cases askGemini gk go with
        | error e => rfl
        | ok gem =>
          cases h : findTruthyParsed (textCandidates gem) with
          | none => simp [h]
          | some v => by_cases hacc : recommendedIdsIsArray v <;> simp [h, hacc]

/-- Witness for C6: the snippet equation applied at a concrete non-2xx
failure message. -/
theorem c6_witness :
    buildSnippets (.obj [("error", .str "SerpApi HTTP 500: boom")]) =
      [Json.obj [("title", .str "search-error"), ("snippet", .str "SerpApi HTTP 500: boom")]] :=
  c6_search_failures_nonfatal.2.2.2.1 "SerpApi HTTP 500: boom" (by decide)

/-- Claim C7: a missing model key or a model timeout propagates as a
request-level failure: the endpoint answers 500 with a stringified error
body, never with a recommendation; with the key unset this happens for every
query that passes the boundary. -/
theorem c7_model_hard_failures_500 :
    (∀ (sk : Bool) (o : SearchOutcome) (go : GemOutcome) (q : String) (ps : List Product),
      q ≠ "" →
      handler sk o false go (some q) ps =
        ⟨500, .obj [("error", .str "Error: GEMINI_API_KEY not set in server environment.")]⟩) ∧
    (∀ (sk : Bool) (o : SearchOutcome) (q : String) (ps : List Product),
      q ≠ "" →
      handler sk o true .timeout (some q) ps =
        ⟨500, .obj [("error", .str "Error: Gemini call failed: timeout")]⟩) := by
  constructor
  · intro sk o go q ps hq
    simp [handler, hq, askGemini]
  · intro sk o q ps hq
    simp [handler, hq, askGemini]

/-- Witness for C7: both hard failures at a concrete request. -/
theorem c7_witness :
    handler false .timeout false .timeout (some "q") [] =
      ⟨500, .obj [("error", .str "Error: GEMINI_API_KEY not set in server environment.")]⟩ ∧
    handler false .timeout true .timeout (some "q") [] =
      ⟨500, .obj [("error", .str "Error: Gemini call failed: timeout")]⟩ :=
  ⟨c7_model_hard_failures_500.1 false .timeout .timeout "q" [] (by decide),
   c7_model_hard_failures_500.2 false .timeout "q" [] (by decide)⟩

/-- Non-2xx model response body used by the C8 counterexample: it passes the
acceptance rule, so the endpoint returns it, not the fallback result. -/
def c8Body : Json := .obj [("recommended_ids", .arr [])]

/-- Claim C8 counterexample: a 503 model response whose JSON body itself
carries a recommended_ids array is returned as the accepted recommendation
with status 200; the response is not the fallback result the claim
asserts. -/
theorem c8_counterexample :
    handler false .timeout true (.ok 503 c8Body) (some "q") [] = ⟨200, c8Body⟩ ∧
    getField c8Body "reason" = .undefined ∧
    (handler false .timeout true (.ok 503 c8Body) (some "q") []).body ≠
      fallbackResponse "q" [] (buildSnippets (webSearch false .timeout))
        (textCandidates c8Body) := by
  decide

/-- Claim C8 as amended: the Model Client returns a non-2xx JSON body as
data without checking the status, and the endpoint then answers 200 (with
the extracted value when the stringified body yields an accepted one, with
the fallback result otherwise), never a 5xx error. -/
theorem c8_no_status_check_200 :
    ∀ (st : Nat) (body : Json) (sk : Bool) (o : SearchOutcome) (q : String) (ps : List Product),
      q ≠ "" →
      askGemini true (.ok st body) = .ok body ∧
      (handler sk o true (.ok st body) (some q) ps).status = 200 := by
  intro st body sk o q ps hq
  refine ⟨rfl, ?_⟩
  simp only [handler, if_neg hq, askGemini]
  cases h : findTruthyParsed (textCandidates body) with
  | none => simp [h]
  | some v => by_cases hacc : recommendedIdsIsArray v <;> simp [h, hacc]

/-- Witness for C8: the amended theorem applied at the 503 response. -/
theorem c8_witness :
    askGemini true (.ok 503 c8Body) = .ok c8Body ∧
    (handler false .timeout true (.ok 503 c8Body) (some "q") []).status = 200 :=
  c8_no_status_check_200 503 c8Body false .timeout "q" [] (by decide)

/-- Claim C9: every 200 response of the endpoint carries a recommended_ids
field that is an array, and on the fallback path the array (built from
fallbackIds) has at most 3 elements. -/
theorem c9_recommended_ids_always_array :
    ∀ (sk : Bool) (o : SearchOutcome) (gk : Bool) (go : GemOutcome) (q : Option String)
      (ps : List Product) (qs : String) (ps2 : List Product) (sn cands : List Json),
      ((handler sk o gk go q ps).status = 200 →
        ∃ l, getField (handler sk o gk go q ps).body "recommended_ids" = .arr l) ∧
      getField (fallbackResponse qs ps2 sn cands) "recommended_ids" =
        .arr ((fallbackIds qs ps2).map Json.str) ∧
      (fallbackIds qs ps2).length ≤ 3 := by
  intro sk o gk go q ps qs ps2 sn cands
  refine ⟨?_, rfl, fallbackIds_length_le_three qs ps2⟩
  intro h200
  cases q with
  | none => simp [handler] at h200
  | some qq =>
    by_cases hq : qq = ""
    · subst hq; simp [handler] at h200
    · cases hask : askGemini gk go with
      | error e => simp [handler, hq, hask] at h200
      | ok gem =>
        cases hf : findTruthyParsed (textCandidates gem) with
        | none =>
          refine ⟨(fallbackIds qq ps).map Json.str, ?_⟩
          simp [handler, hq, hask, hf, fallbackResponse, getField]
        | some v =>
          by_cases hacc : recommendedIdsIsArray v
          · have harr := hacc
            simp only [recommendedIdsIsArray, Bool.and_eq_true] at harr
            obtain ⟨l, hl⟩ := isJsonArr_exists harr.2
            refine ⟨l, ?_⟩
            simpa [handler, hq, hask, hf, hacc] using hl
          · refine ⟨(fallbackIds qq ps).map Json.str, ?_⟩
            simp [handler, hq, hask, hf, hacc, fallbackResponse, getField]

/-- Witness for C9: a concrete 200 response (fallback path) whose
recommended_ids field the theorem shows to be an array. -/
theorem c9_witness :
    ∃ l, getField (handler false .timeout true (.ok 200 (Json.obj [])) (some "q") []).body
      "recommended_ids" = .arr l :=
  (c9_recommended_ids_always_array false .timeout true (.ok 200 (Json.obj [])) (some "q") []
      "q" [] [] []).1 (by decide)

/-- Claim C10 counterexample: a whitespace-only query is truthy, so the
server boundary does not reject it; the core runs and the endpoint answers
200 with a fallback body, not 400. -/
theorem c10_counterexample :
    (handler false (.fetchErr "e") true (.ok 200 (Json.obj [])) (some " ") PRODUCTS).status
      = 200 ∧
    (handler false (.fetchErr "e") true (.ok 200 (Json.obj [])) (some " ") PRODUCTS).status
      ≠ 400 ∧
    getField (handler false (.fetchErr "e") true (.ok 200 (Json.obj [])) (some " ") PRODUCTS).body
      "reason" = .str "Fallback heuristic (Gemini did not return machine-readable JSON)." := by
  decide

/-- Claim C10 as amended: the server boundary rejects a missing or
empty-string query with 400 and the missing-query error body; a
whitespace-only query is not rejected by the server and reaches the core;
only the out-of-scope client form (handleRecommend) rejects whitespace-only
input, before any request is sent. -/
theorem c10_boundary :
    (∀ (sk : Bool) (o : SearchOutcome) (gk : Bool) (go : GemOutcome) (ps : List Product),
      handler sk o gk go none ps = ⟨400, .obj [("error", .str "missing query")]⟩) ∧
    (∀ (sk : Bool) (o : SearchOutcome) (gk : Bool) (go : GemOutcome) (ps : List Product),
      handler sk o gk go (some "") ps = ⟨400, .obj [("error", .str "missing query")]⟩) ∧
    handleRecommendRejects " " = true ∧
    handleRecommendRejects "" = true := by
  refine ⟨fun _ _ _ _ _ => rfl, fun _ _ _ _ _ => ?_, by decide, by decide⟩
  simp [handler]


end AiRecommender
